import Mathlib

/-!
Verification of the TableAI conversational order-taking engine.

This file is a shallow embedding, in Lean 4, of the pure logic of the
repository's two Lambda handlers (`src/app.py` and
`lambda_container_project/app.py`): the name normaliser, the JSON
machinery used by the order parser, the menu resolver, the
required-option check, the menu cache, the dialog code hook and the
order-modification loop.  External collaborators (the LLM completion
service, the embedding service, the catalog store) are modelled as
inputs: a function or value supplied to the embedded code, never
invented by it.  Python runtime errors are modelled with an explicit
error type and `Except`; Python values flowing through JSON are
modelled by an inductive `Json` type; floating-point similarity scores
are modelled over the real numbers.
-/

namespace TableAI

/-! ## Characters and the name normaliser (`_normalize_name`) -/

/-- Python whitespace, as matched by both `str.strip()` and the regex
class used in `_normalize_name` (the ASCII whitespace characters,
the C1 controls Python treats as space, and the Unicode space
separators). -/
def isPySpaceNat (n : Nat) : Bool :=
  n == 32 || n == 9 || n == 10 || n == 11 || n == 12 ||
  n == 13 || n == 28 || n == 29 || n == 30 || n == 31 ||
  n == 133 || n == 160 || n == 5760 ||
  (8192 ≤ n && n ≤ 8202) ||
  n == 8232 || n == 8233 || n == 8239 || n == 8287 ||
  n == 12288

/-- Whether a character is Python whitespace. -/
def isPySpace (c : Char) : Bool := isPySpaceNat c.toNat

/-- Case folding of one character, as `str.lower()` acts on the ASCII
range (the menu data and every string compared by the engine is
ASCII; letters outside ASCII are left unchanged by this model). -/
def pyLowerChar (c : Char) : Char :=
  if 65 ≤ c.toNat ∧ c.toNat ≤ 90 then Char.ofNat (c.toNat + 32) else c

/-- Python `s.strip()` on a list of characters: drop whitespace from
both ends. -/
def stripWs (l : List Char) : List Char :=
  ((l.dropWhile isPySpace).reverse.dropWhile isPySpace).reverse

/-- The regex substitution of `_normalize_name`: every maximal run of
whitespace becomes a single ASCII space. -/
def collapseWs : List Char → List Char
  | [] => []
  | [c] => if isPySpace c then [' '] else [c]
  | c1 :: c2 :: rest =>
    if isPySpace c1 then
      if isPySpace c2 then collapseWs (c2 :: rest)
      else ' ' :: collapseWs (c2 :: rest)
    else c1 :: collapseWs (c2 :: rest)

/-- The string part of `_normalize_name` (`app.py` lines 56-59): strip,
lower-case, collapse whitespace runs to single spaces. -/
def normalizeStr (s : String) : String :=
  String.mk (collapseWs ((stripWs s.toList).map pyLowerChar))

/-! ## Python values carried through JSON

Every dynamically-typed value the engine moves around (LLM output,
DynamoDB records, order line items, option mappings) is modelled by
one inductive type.  Python `int` and `float` are kept apart because
`json.loads` produces them apart and `int(...)` behaves differently
on each. -/

inductive Json where
  | null
  | bool (b : Bool)
  | int (n : Int)
  | float (q : ℚ)
  | str (s : String)
  | arr (xs : List Json)
  | obj (kvs : List (String × Json))

/-- Python runtime errors, at the granularity the embedded code
distinguishes them. -/
inductive PyErr where
  | attributeError
  | keyError
  | typeError
  | valueError
  | jsonDecodeError
  | other
deriving DecidableEq, Repr, Inhabited

/-! ### Dictionary operations (Python `dict` on string keys) -/

def dictGet? {α : Type} (kvs : List (String × α)) (k : String) : Option α :=
  match kvs with
  | [] => none
  | (k', v) :: rest => if k' = k then some v else dictGet? rest k

/-- Python `d.get(k, default)`. -/
def dictGetD {α : Type} (kvs : List (String × α)) (k : String) (d : α) : α :=
  (dictGet? kvs k).getD d

/-- Python `k in d`. -/
def dictContains {α : Type} (kvs : List (String × α)) (k : String) : Bool :=
  (dictGet? kvs k).isSome

/-- Python `d[k] = v`: overwrite in place if the key exists (keeping its
position, as insertion-ordered dicts do), else append. -/
def dictInsert {α : Type} (kvs : List (String × α)) (k : String) (v : α) :
    List (String × α) :=
  match kvs with
  | [] => [(k, v)]
  | (k', v') :: rest =>
    if k' = k then (k', v) :: rest else (k', v') :: dictInsert rest k v

/-- Python `d.pop(k, None)`, keeping only the remaining dict. -/
def dictPop {α : Type} (kvs : List (String × α)) (k : String) : List (String × α) :=
  match kvs with
  | [] => []
  | (k', v') :: rest => if k' = k then rest else (k', v') :: dictPop rest k

/-! ### Truthiness and conversions -/

/-- Python truthiness of a JSON-carried value. -/
def pyTruthy : Json → Bool
  | .null => false
  | .bool b => b
  | .int n => n != 0
  | .float q => q != 0
  | .str s => s != ""
  | .arr xs => !xs.isEmpty
  | .obj kvs => !kvs.isEmpty

/-- Python truthiness of an optional string (`None` and the empty
string are falsy). -/
def optStrTruthy : Option String → Bool
  | none => false
  | some s => s != ""

/-- Python `==` between a JSON-carried value and a string literal:
true exactly for the equal string (no cross-type coercion involves
`str`). -/
def pyEqStr : Json → String → Bool
  | .str s, t => s == t
  | _, _ => false

/-- The name normaliser `_normalize_name` (`app.py` lines 56-59) on an
arbitrary Python value: non-strings normalise to the empty string. -/
def normalize_name (v : Json) : String :=
  match v with
  | .str s => normalizeStr s
  | _ => ""

/-- Whether a value is a Python `str`. -/
def jIsStr : Json → Bool
  | .str _ => true
  | _ => false

/-- Whether a value is a Python `dict`. -/
def jIsObj : Json → Bool
  | .obj _ => true
  | _ => false

/-- Whether a value is a Python `list`. -/
def jIsArr : Json → Bool
  | .arr _ => true
  | _ => false

/-- Python `value[key]` on a JSON-carried value: `KeyError` when the
key is missing, `TypeError`-like failure when the value is not a
dict. -/
def pyIndex (j : Json) (k : String) : Except PyErr Json :=
  match j with
  | .obj kvs =>
    match dictGet? kvs k with
    | some v => .ok v
    | none => .error .keyError
  | _ => .error .typeError

/-- Python `value.get(key, default)`: `AttributeError` when the value
is not a dict. -/
def pyGet (j : Json) (k : String) (d : Json) : Except PyErr Json :=
  match j with
  | .obj kvs => .ok (dictGetD kvs k d)
  | _ => .error .attributeError

/-- Truncation of a rational toward zero, as Python `int(float)`. -/
def ratTrunc (q : ℚ) : Int := q.num / (q.den : Int)

def isDigitC (c : Char) : Bool := 48 ≤ c.toNat && c.toNat ≤ 57

def digitsToNat (ds : List Char) : Nat :=
  ds.foldl (fun a c => a * 10 + (c.toNat - 48)) 0

/-- Python `int(s)` on the stripped character list: optional sign, then
one or more digits. -/
def intOfChars (t : List Char) : Except PyErr Int :=
  match t with
  | '-' :: ds =>
    if !ds.isEmpty && ds.all isDigitC then .ok (-(digitsToNat ds : Int))
    else .error .valueError
  | '+' :: ds =>
    if !ds.isEmpty && ds.all isDigitC then .ok (digitsToNat ds : Int)
    else .error .valueError
  | ds =>
    if !ds.isEmpty && ds.all isDigitC then .ok (digitsToNat ds : Int)
    else .error .valueError

/-- Python `int(value)`: ints pass through, floats truncate toward
zero, booleans become 0/1, strings are parsed (whitespace stripped),
everything else raises. -/
def pyToInt : Json → Except PyErr Int
  | .int n => .ok n
  | .float q => .ok (ratTrunc q)
  | .bool b => .ok (if b then 1 else 0)
  | .str s => intOfChars (stripWs s.toList)
  | _ => .error .typeError

/-- Python `float(s)` number grammar on the stripped character list:
optional sign, digits with an optional point and optional exponent.
The special spellings `inf` and `nan` have no rational counterpart and
are modelled as errors; no catalog record uses them. -/
def floatOfChars (t : List Char) : Except PyErr ℚ :=
  let core : List Char → Except PyErr ℚ := fun u =>
    let ip := u.takeWhile isDigitC
    let r1 := u.dropWhile isDigitC
    let fr : Option (List Char × List Char) :=
      match r1 with
      | '.' :: rs => some (rs.takeWhile isDigitC, rs.dropWhile isDigitC)
      | _ => some ([], r1)
    match fr with
    | none => .error .valueError
    | some (fp, r2) =>
      if ip.isEmpty && fp.isEmpty then .error .valueError
      else
        let base : ℚ := (digitsToNat ip : ℚ) + (digitsToNat fp : ℚ) / ((10 : ℚ) ^ fp.length)
        match r2 with
        | [] => .ok base
        | e :: rs =>
          if e = 'e' || e = 'E' then
            let sgn : Bool × List Char :=
              match rs with
              | '+' :: t2 => (false, t2)
              | '-' :: t2 => (true, t2)
              | _ => (false, rs)
            let ds := sgn.2.takeWhile isDigitC
            if ds.isEmpty || !(sgn.2.dropWhile isDigitC).isEmpty then .error .valueError
            else
              let ex : Int := (digitsToNat ds : Int)
              .ok (base * (10 : ℚ) ^ (if sgn.1 then -ex else ex))
          else .error .valueError
  match t with
  | '-' :: u => (core u).map (fun q => -q)
  | '+' :: u => core u
  | u => core u

/-- Python `float(value)`. -/
def pyToFloat : Json → Except PyErr ℚ
  | .int n => .ok (n : ℚ)
  | .float q => .ok q
  | .bool b => .ok (if b then 1 else 0)
  | .str s => floatOfChars (stripWs s.toList)
  | _ => .error .typeError

/-! ### Rendering: Python `str()` and `json.dumps` -/

/-- Rendering of a Python float.  Python prints a decimal expansion;
this model prints the integer part with `.0`, or numerator and
denominator.  Both spellings consist of digits and punctuation only,
which is all any embedded check depends on (the category test below
looks for the letters of `drink`). -/
def floatRepr (q : ℚ) : String :=
  if q.den = 1 then toString q.num ++ ".0"
  else toString q.num ++ "/" ++ toString q.den

mutual

/-- Python `repr` of a JSON-carried value (used inside containers and
for non-string `str()` arguments). -/
def pyRepr : Json → String
  | .null => "None"
  | .bool true => "True"
  | .bool false => "False"
  | .int n => toString n
  | .float q => floatRepr q
  | .str s => "\x27" ++ s ++ "\x27"
  | .arr xs => "[" ++ pyReprList xs ++ "]"
  | .obj kvs => "\x7b" ++ pyReprPairs kvs ++ "\x7d"

def pyReprList : List Json → String
  | [] => ""
  | [x] => pyRepr x
  | x :: y :: rest => pyRepr x ++ ", " ++ pyReprList (y :: rest)

def pyReprPairs : List (String × Json) → String
  | [] => ""
  | [(k, v)] => "\x27" ++ k ++ "\x27: " ++ pyRepr v
  | (k, v) :: p :: rest => "\x27" ++ k ++ "\x27: " ++ pyRepr v ++ ", " ++ pyReprPairs (p :: rest)

end

/-- Python `str()` of a JSON-carried value. -/
def pyStr : Json → String
  | .str s => s
  | j => pyRepr j

def hexDigit (n : Nat) : Char :=
  if n < 10 then Char.ofNat (48 + n) else Char.ofNat (87 + n)

def hex4 (n : Nat) : String :=
  String.mk [hexDigit ((n / 4096) % 16), hexDigit ((n / 256) % 16),
    hexDigit ((n / 16) % 16), hexDigit (n % 16)]

/-- One character of a JSON string under `json.dumps` defaults
(`ensure_ascii = True`). -/
def escapeJsonChar (c : Char) : String :=
  if c = '"' then "\\\""
  else if c = '\\' then "\\\\"
  else if c = '\x08' then "\\b"
  else if c = '\x0c' then "\\f"
  else if c = '\n' then "\\n"
  else if c = '\r' then "\\r"
  else if c = '\t' then "\\t"
  else if c.toNat < 32 || 127 ≤ c.toNat then "\\u" ++ hex4 c.toNat
  else String.mk [c]

def dumpsString (s : String) : String :=
  "\"" ++ String.join (s.toList.map escapeJsonChar) ++ "\""

mutual

/-- Python `json.dumps` with its default separators.  The engine only
ever parses its own dumps back or shows them to the platform, so the
exact float spelling (see `floatRepr`) is the one liberty taken. -/
def dumps : Json → String
  | .null => "null"
  | .bool true => "true"
  | .bool false => "false"
  | .int n => toString n
  | .float q => floatRepr q
  | .str s => dumpsString s
  | .arr xs => "[" ++ dumpsList xs ++ "]"
  | .obj kvs => "\x7b" ++ dumpsPairs kvs ++ "\x7d"

def dumpsList : List Json → String
  | [] => ""
  | [x] => dumps x
  | x :: y :: rest => dumps x ++ ", " ++ dumpsList (y :: rest)

def dumpsPairs : List (String × Json) → String
  | [] => ""
  | [(k, v)] => dumpsString k ++ ": " ++ dumps v
  | (k, v) :: p :: rest => dumpsString k ++ ": " ++ dumps v ++ ", " ++ dumpsPairs (p :: rest)

end

/-! ### Parsing: Python `json.loads`

A fuel-indexed recursive-descent parser for the JSON grammar as the
`json` module accepts it in its default strict mode: only the four
JSON whitespace characters between tokens, string keys, no trailing
commas, unescaped control characters rejected.  The fuel argument only
serves termination: every recursive call consumes input, so the fuel
`length + 1` supplied by `pyJsonLoads` is never exhausted.  Two
liberties, neither reachable from any catalog or claim input: the
non-standard spellings `NaN`/`Infinity` are not accepted, and a
`\uXXXX` escape is taken as the code point `XXXX` without combining
surrogate pairs. -/

def jsonWsChar (c : Char) : Bool :=
  c == ' ' || c == '\t' || c == '\n' || c == '\r'

def skipWs (l : List Char) : List Char := l.dropWhile jsonWsChar

def hexVal? (c : Char) : Option Nat :=
  if 48 ≤ c.toNat ∧ c.toNat ≤ 57 then some (c.toNat - 48)
  else if 97 ≤ c.toNat ∧ c.toNat ≤ 102 then some (c.toNat - 87)
  else if 65 ≤ c.toNat ∧ c.toNat ≤ 70 then some (c.toNat - 55)
  else none

def parseStringBody (fuel : Nat) (l : List Char) (acc : List Char) :
    Option (String × List Char) :=
  match fuel with
  | 0 => none
  | fuel + 1 =>
    match l with
    | [] => none
    | '"' :: rest => some (String.mk acc.reverse, rest)
    | '\\' :: esc :: rest =>
      if esc = '"' then parseStringBody fuel rest ('"' :: acc)
      else if esc = '\\' then parseStringBody fuel rest ('\\' :: acc)
      else if esc = '/' then parseStringBody fuel rest ('/' :: acc)
      else if esc = 'b' then parseStringBody fuel rest ('\x08' :: acc)
      else if esc = 'f' then parseStringBody fuel rest ('\x0c' :: acc)
      else if esc = 'n' then parseStringBody fuel rest ('\n' :: acc)
      else if esc = 'r' then parseStringBody fuel rest ('\r' :: acc)
      else if esc = 't' then parseStringBody fuel rest ('\t' :: acc)
      else if esc = 'u' then
        match rest with
        | h1 :: h2 :: h3 :: h4 :: rest2 =>
          match hexVal? h1, hexVal? h2, hexVal? h3, hexVal? h4 with
          | some a, some b, some c, some d =>
            parseStringBody fuel rest2 (Char.ofNat (a * 4096 + b * 256 + c * 16 + d) :: acc)
          | _, _, _, _ => none
        | _ => none
      else none
    | c :: rest =>
      if c.toNat < 32 then none else parseStringBody fuel rest (c :: acc)

def parseNumber (l : List Char) : Option (Json × List Char) :=
  let negp : Bool × List Char :=
    match l with
    | '-' :: rest => (true, rest)
    | _ => (false, l)
  let ip : Option (Nat × List Char) :=
    match negp.2 with
    | '0' :: rest => some (0, rest)
    | c :: _ =>
      if isDigitC c then
        some (digitsToNat (negp.2.takeWhile isDigitC), negp.2.dropWhile isDigitC)
      else none
    | [] => none
  match ip with
  | none => none
  | some (intVal, r1) =>
    let fr : Option (Option (List Char) × List Char) :=
      match r1 with
      | '.' :: rs =>
        let ds := rs.takeWhile isDigitC
        if ds.isEmpty then none else some (some ds, rs.dropWhile isDigitC)
      | _ => some (none, r1)
    match fr with
    | none => none
    | some (fracDs, r2) =>
      let ex : Option (Option Int × List Char) :=
        match r2 with
        | c :: rs =>
          if c = 'e' || c = 'E' then
            let sgnrest : Bool × List Char :=
              match rs with
              | '+' :: t => (false, t)
              | '-' :: t => (true, t)
              | _ => (false, rs)
            let ds := sgnrest.2.takeWhile isDigitC
            if ds.isEmpty then none
            else
              some (some (if sgnrest.1 then -(digitsToNat ds : Int) else (digitsToNat ds : Int)),
                sgnrest.2.dropWhile isDigitC)
          else some (none, r2)
        | [] => some (none, r2)
      match ex with
      | none => none
      | some (expOpt, r3) =>
        match fracDs, expOpt with
        | none, none =>
          some (Json.int (if negp.1 then -(intVal : Int) else (intVal : Int)), r3)
        | _, _ =>
          let base : ℚ :=
            (intVal : ℚ) +
              (match fracDs with
               | none => 0
               | some ds => (digitsToNat ds : ℚ) / ((10 : ℚ) ^ ds.length))
          let mag : ℚ := base * (10 : ℚ) ^ (expOpt.getD 0)
          some (Json.float (if negp.1 then -mag else mag), r3)

mutual

def parseValue (fuel : Nat) (l : List Char) : Option (Json × List Char) :=
  match fuel with
  | 0 => none
  | fuel + 1 =>
    match skipWs l with
    | [] => none
    | c :: rest =>
      if c = '\x7b' then parseMembersStart fuel rest
      else if c = '[' then parseElemsStart fuel rest
      else if c = '"' then
        match parseStringBody fuel rest [] with
        | some (s, r) => some (Json.str s, r)
        | none => none
      else if c = 't' then
        match rest with
        | 'r' :: 'u' :: 'e' :: r => some (Json.bool true, r)
        | _ => none
      else if c = 'f' then
        match rest with
        | 'a' :: 'l' :: 's' :: 'e' :: r => some (Json.bool false, r)
        | _ => none
      else if c = 'n' then
        match rest with
        | 'u' :: 'l' :: 'l' :: r => some (Json.null, r)
        | _ => none
      else parseNumber (c :: rest)

def parseMembersStart (fuel : Nat) (l : List Char) : Option (Json × List Char) :=
  match fuel with
  | 0 => none
  | fuel + 1 =>
    match skipWs l with
    | '\x7d' :: rest => some (Json.obj [], rest)
    | _ => parseMembers fuel l []

def parseMembers (fuel : Nat) (l : List Char) (acc : List (String × Json)) :
    Option (Json × List Char) :=
  match fuel with
  | 0 => none
  | fuel + 1 =>
    match skipWs l with
    | '"' :: rest =>
      match parseStringBody fuel rest [] with
      | none => none
      | some (k, r1) =>
        match skipWs r1 with
        | ':' :: r2 =>
          match parseValue fuel r2 with
          | none => none
          | some (v, r3) =>
            match skipWs r3 with
            | ',' :: r4 => parseMembers fuel r4 (dictInsert acc k v)
            | '\x7d' :: r4 => some (Json.obj (dictInsert acc k v), r4)
            | _ => none
        | _ => none
    | _ => none

def parseElemsStart (fuel : Nat) (l : List Char) : Option (Json × List Char) :=
  match fuel with
  | 0 => none
  | fuel + 1 =>
    match skipWs l with
    | ']' :: rest => some (Json.arr [], rest)
    | _ => parseElems fuel l []

def parseElems (fuel : Nat) (l : List Char) (acc : List Json) :
    Option (Json × List Char) :=
  match fuel with
  | 0 => none
  | fuel + 1 =>
    match parseValue fuel l with
    | none => none
    | some (v, r1) =>
      match skipWs r1 with
      | ',' :: r2 => parseElems fuel r2 (acc ++ [v])
      | ']' :: r2 => some (Json.arr (acc ++ [v]), r2)
      | _ => none

end

/-- Python `json.loads`: parse one JSON value and insist nothing but
whitespace follows; `none` models `json.JSONDecodeError`. -/
def pyJsonLoads (s : String) : Option Json :=
  match parseValue (s.toList.length + 1) s.toList with
  | some (v, rest) => if (skipWs rest).isEmpty then some v else none
  | none => none

/-! ## JSON extraction from free text (`_extract_json_from_text`) -/

/-- The brace-counting loop of `_extract_json_from_text` (src/app.py
lines 531-543): scan forward accumulating characters and a raw brace
count, and stop at the first closing brace that brings the count to
zero.  String literals are not understood: braces inside them count. -/
def braceScan (l : List Char) (acc : List Char) (depth : Int) : Option (List Char) :=
  match l with
  | [] => none
  | c :: rest =>
    if c = '\x7b' then braceScan rest (c :: acc) (depth + 1)
    else if c = '\x7d' then
      if depth - 1 = 0 then some ((c :: acc).reverse)
      else braceScan rest (c :: acc) (depth - 1)
    else braceScan rest (c :: acc) depth

/-- The function `_extract_json_from_text` (src/app.py lines 510-546,
identically lambda_container_project/app.py lines 611-626): whole-text
parse first, then brace scan from the first opening brace, the
candidate validated by a parse whose failure aborts the whole
extraction (the `json.loads` inside the loop raises into the
enclosing `except`, which returns `None`). -/
def _extract_json_from_text (text : String) : Option String :=
  if text = "" then none
  else if (pyJsonLoads text).isSome then some text
  else
    match text.toList.dropWhile (fun c => c != '\x7b') with
    | [] => none
    | c :: rest =>
      match braceScan (c :: rest) [] 0 with
      | none => none
      | some cand =>
        if (pyJsonLoads (String.mk cand)).isSome then some (String.mk cand) else none

/-! ## The order parser (`invoke_openrouter_parser`) -/

/-- Response handling of `invoke_openrouter_parser` (src/app.py lines
548-675).  The completion call is this function's input — either the
message content the service returned (a string, or `None`) or a
raised error — and everything from the response onward is embedded:
extraction, the dict/key/list shape checks, the filtering of non-dict
items, and the enclosing `try`/`except` under which every failure
returns the empty dict. -/
def invoke_openrouter_parse (llm : Except PyErr (Option String)) : Json :=
  match llm with
  | .error _ => Json.obj []
  | .ok none => Json.obj []
  | .ok (some response_text) =>
    match _extract_json_from_text response_text with
    | none => Json.obj []
    | some json_str =>
      if json_str = "" then Json.obj []
      else
        match pyJsonLoads json_str with
        | none => Json.obj []
        | some parsed =>
          match parsed with
          | Json.obj kvs =>
            match dictGet? kvs "order_items" with
            | none => Json.obj []
            | some items =>
              match items with
              | Json.arr xs =>
                if xs.all jIsObj then Json.obj kvs
                else Json.obj (dictInsert kvs "order_items" (Json.arr (xs.filter jIsObj)))
              | _ => Json.obj []
          | _ => Json.obj []

/-- The item list a caller reads off the parser's result:
`parsed_result.get('order_items', [])` under the callers' dict and
list shape checks. -/
def orderItemsOf : Json → List Json
  | .obj kvs =>
    match dictGet? kvs "order_items" with
    | some (Json.arr xs) => xs
    | _ => []
  | _ => []

/-! ## The menu catalog model

`_build_menu_lookup` turns raw catalog records into the lookup table
the rest of the engine reads: option metadata under normalised group
names, and the denormalised category/price/number fields. -/

/-- One option group's metadata, as `_build_menu_lookup` stores it:
display name (kept as the raw value, which is a string for every real
record), normalised choice strings, required flag. -/
structure OptMeta where
  raw_name : Json
  choices : List String
  required : Bool

/-- One entry of the menu lookup table (src/app.py lines 155-162). -/
structure MenuEntry where
  raw_item : Json
  normalized_name : String
  options : List (String × OptMeta)
  category : Json
  price : Json
  item_number : Json

/-- The lookup table `_build_menu_lookup` returns: an insertion-ordered
dict from normalised item name to entry. -/
abbrev MenuLookup := List (String × MenuEntry)

/-- A dict key derived from a raw display name.  Python would key the
dict by the raw value itself; every real option name is a string, for
which this is the identity. -/
def keyOfJson : Json → String
  | .str s => s
  | j => pyRepr j

mutual

def jsonSize : Json → Nat
  | .null => 1
  | .bool _ => 1
  | .int _ => 1
  | .float _ => 1
  | .str _ => 1
  | .arr xs => 1 + jsonSizeList xs
  | .obj kvs => 1 + jsonSizePairs kvs

def jsonSizeList : List Json → Nat
  | [] => 0
  | x :: xs => 1 + jsonSize x + jsonSizeList xs

def jsonSizePairs : List (String × Json) → Nat
  | [] => 0
  | (_, v) :: rest => 1 + jsonSize v + jsonSizePairs rest

end

/-- Recursive unwrapping of DynamoDB type descriptors
(`_unwrap_dynamodb_value`, src/app.py lines 61-90).  The fuel only
serves termination (the recursion descends through values reached by
key lookup, which the termination checker cannot see); the wrapper
supplies more fuel than any value is deep. -/
def unwrapAux : Nat → Json → Except PyErr Json
  | 0, _ => .error .other
  | fuel + 1, j =>
    match j with
    | .obj kvs =>
      if dictContains kvs "S" then .ok (dictGetD kvs "S" Json.null)
      else if dictContains kvs "N" then
        (pyToFloat (dictGetD kvs "N" Json.null)).map Json.float
      else if dictContains kvs "BOOL" then .ok (dictGetD kvs "BOOL" Json.null)
      else if dictContains kvs "L" then
        match dictGetD kvs "L" Json.null with
        | .arr xs => (xs.mapM (unwrapAux fuel)).map Json.arr
        | .str s => .ok (Json.arr (s.toList.map (fun ch => Json.str (String.mk [ch]))))
        | _ => .error .typeError
      else if dictContains kvs "M" then
        match dictGetD kvs "M" Json.null with
        | .obj m =>
          (m.mapM (fun kv => (unwrapAux fuel kv.2).map (fun v => (kv.1, v)))).map Json.obj
        | _ => .error .attributeError
      else (kvs.mapM (fun kv => (unwrapAux fuel kv.2).map (fun v => (kv.1, v)))).map Json.obj
    | .arr xs => (xs.mapM (unwrapAux fuel)).map Json.arr
    | v => .ok v

def _unwrap_dynamodb_value (j : Json) : Except PyErr Json :=
  unwrapAux (jsonSize j + 1) j

/-- The choice list of one option group (src/app.py lines 130-144):
names of the dict-shaped entries of the group's `items` list,
normalised. -/
def buildChoices (items_list : Json) : List String :=
  let xs := match items_list with
    | .arr xs => xs
    | _ => []
  xs.foldl (fun choices choice_item =>
    match choice_item with
    | .obj ckvs =>
      let choice_name_raw := dictGetD ckvs "name" (Json.str "")
      if pyTruthy choice_name_raw then choices ++ [normalize_name choice_name_raw]
      else choices
    | _ => choices) []

/-- The option-group dict of one menu item (src/app.py lines 107-153). -/
def buildOptions (raw_options_list : Json) : List (String × OptMeta) :=
  let opts := match raw_options_list with
    | .arr xs => xs
    | _ => []
  opts.foldl (fun options_struct opt =>
    match opt with
    | .obj okvs =>
      let opt_name_raw := dictGetD okvs "name" (Json.str "")
      if pyTruthy opt_name_raw then
        let opt_name := normalize_name opt_name_raw
        let choices := buildChoices (dictGetD okvs "items" (Json.arr []))
        let required := pyTruthy (dictGetD okvs "required" (Json.bool false))
        dictInsert options_struct opt_name ⟨opt_name_raw, choices, required⟩
      else options_struct
    | _ => options_struct) []

/-- `_build_menu_lookup` (src/app.py lines 92-164): unwrap each record,
skip the ones without a truthy `ItemName`, and key the entries by
normalised name (later duplicates overwrite in place). -/
def _build_menu_lookup (items : List Json) : Except PyErr MenuLookup :=
  items.foldlM (fun lookup item => do
    let unwrapped_item ← _unwrap_dynamodb_value item
    let raw_name ← pyGet unwrapped_item "ItemName" (Json.str "")
    if pyTruthy raw_name then
      let normalized := normalize_name raw_name
      let raw_options_list ← pyGet unwrapped_item "Options" (Json.arr [])
      let options_struct := buildOptions raw_options_list
      let category ← pyGet unwrapped_item "Category" Json.null
      let price ← pyGet unwrapped_item "Price" Json.null
      let item_number ← pyGet unwrapped_item "ItemNumber" Json.null
      pure (dictInsert lookup normalized
        ⟨unwrapped_item, normalized, options_struct, category, price, item_number⟩)
    else pure lookup) []

/-- One entry of the embeddings cache: a normalised item name and its
precomputed vector.  Components are rationals — every IEEE float is
one — cast to the reals only where similarity is computed. -/
structure EmbItem where
  normalized_key : String
  embedding : List ℚ

/-- The embeddings-cache build inside `get_menu` (src/app.py lines
192-211): entries with a truthy, list-shaped `ItemEmbedding` are kept,
others are skipped with a warning. -/
def buildEmbeddings (items : List Json) : Except PyErr (List EmbItem) :=
  items.foldlM (fun embeddings item => do
    let unwrapped_item ← _unwrap_dynamodb_value item
    let embedding_value ← pyGet unwrapped_item "ItemEmbedding" Json.null
    if pyTruthy embedding_value then
      match embedding_value with
      | .arr xs => do
        let floats ← xs.mapM pyToFloat
        let name ← pyGet unwrapped_item "ItemName" (Json.str "")
        pure (embeddings ++ [⟨normalize_name name, floats⟩])
      | _ => pure embeddings
    else pure embeddings) []

/-! ## The menu cache (`get_menu`) -/

/-- The module-level cache globals of `app.py` (lines 43-48): refresh
timestamp and the three `None`-initialised snapshot slots. -/
structure MenuCacheState where
  menu_cache_timestamp : Int
  menu_raw : Option (List Json)
  menu_lookup : Option MenuLookup
  menu_embeddings_cache : Option (List EmbItem)

/-- `get_menu` (src/app.py lines 166-222) as a state transition.  The
catalog-store scan is this function's input (performed only if the
refresh branch asks for it); the returned boolean records whether it
was consulted.  The refresh branch updates the globals in source
order, so a failure partway leaves exactly the slots assigned before
it (`_menu_raw` first, then the lookup and timestamp, then the
embeddings). -/
def get_menu (force_refresh : Bool) (now : Int) (ttl : Int)
    (scan : Except PyErr (List Json)) (st : MenuCacheState) :
    MenuCacheState × Bool ×
      Except PyErr (List Json × Option MenuLookup × Option (List EmbItem)) :=
  if force_refresh = true ∨ st.menu_raw.isNone = true ∨ now - st.menu_cache_timestamp > ttl then
    match scan with
    | .error e => (st, true, .error e)
    | .ok items =>
      match _build_menu_lookup items with
      | .error e =>
        (⟨st.menu_cache_timestamp, some items, st.menu_lookup, st.menu_embeddings_cache⟩,
          true, .error e)
      | .ok lk =>
        match buildEmbeddings items with
        | .error e =>
          (⟨now, some items, some lk, st.menu_embeddings_cache⟩, true, .error e)
        | .ok embs =>
          (⟨now, some items, some lk, some embs⟩, true, .ok (items, some lk, some embs))
  else
    (st, false, .ok (st.menu_raw.getD [], st.menu_lookup, st.menu_embeddings_cache))

/-! ## The menu resolver (`_fuzzy_find`)

Similarity scores live in the reals: `cosSim` is the cosine formula of
src/app.py lines 254-258, whose explicit zero-norm guard coincides,
over ℝ, with the bare quotient of the container variant (lines
140-141), division by zero being zero. -/

/-- numpy `dot` of two equal-length vectors (every vector the engine
compares has the embedding model's fixed dimension). -/
def dotQ (v1 v2 : List ℚ) : ℚ := (List.zipWith (fun a b => a * b) v1 v2).sum

noncomputable def normQ (v : List ℚ) : ℝ :=
  Real.sqrt (((v.map (fun x => x * x)).sum : ℚ) : ℝ)

/-- Cosine similarity with the zero-norm guard of src/app.py line 258. -/
noncomputable def cosSim (v1 v2 : List ℚ) : ℝ :=
  if normQ v1 = 0 ∨ normQ v2 = 0 then 0
  else ((dotQ v1 v2 : ℚ) : ℝ) / (normQ v1 * normQ v2)

/-- The best-match selection loop of `_fuzzy_find` (src/app.py lines
247-262): best score starts at -1, strict improvement wins, ties keep
the earlier entry. -/
noncomputable def bestEmbedding (q : List ℚ) (cache : List EmbItem) : ℝ × Option String :=
  cache.foldl (fun acc it =>
    let similarity := cosSim q it.embedding
    if similarity > acc.1 then (similarity, some it.normalized_key) else acc)
    (-1, none)

/-- `_fuzzy_find` (src/app.py lines 224-269; the container variant,
lines 131-143, is the same function with the guardless similarity
noted at `cosSim`).  `embed` is the embedding-service call, an input;
the final component counts how often it was invoked, which is what
the exact-match short-circuit is about. -/
noncomputable def _fuzzy_find (normalized_name : String) (menu_lookup : MenuLookup)
    (embed : String → Except PyErr (List ℚ)) (cache : List EmbItem) (cutoff : ℝ) :
    (Option String × ℝ) × Nat :=
  if normalized_name = "" then ((none, 0), 0)
  else if dictContains menu_lookup normalized_name then ((some normalized_name, 1), 0)
  else
    match embed normalized_name with
    | .error _ => ((none, 0), 1)
    | .ok q =>
      let best := bestEmbedding q cache
      if best.1 ≥ cutoff then ((best.2, best.1), 1) else ((none, 0), 1)

/-! ## Option extraction and the required-option check -/

def splitWsAux : List Char → List Char → List (List Char)
  | [], acc => if acc.isEmpty then [] else [acc.reverse]
  | c :: rest, acc =>
    if isPySpace c then
      if acc.isEmpty then splitWsAux rest []
      else acc.reverse :: splitWsAux rest []
    else splitWsAux rest (c :: acc)

/-- Python `s.split()`: words separated by whitespace runs. -/
def pySplit (s : String) : List String := (splitWsAux s.toList []).map String.mk

/-- `_check_if_option_in_item_name` (src/app.py lines 271-297): for
each option group, the first choice appearing as a whole word of the
normalised phrase is recorded under the group's display name. -/
def _check_if_option_in_item_name (parsed_name : Json) (entry : MenuEntry) :
    List (String × Json) :=
  let customer_words := pySplit (normalize_name parsed_name)
  entry.options.foldl (fun detected_options kv =>
    match kv.2.choices.find? (fun choice => customer_words.contains choice) with
    | some choice => dictInsert detected_options (keyOfJson kv.2.raw_name) (Json.str choice)
    | none => detected_options) []

/-- The satisfaction test of src/app.py line 450: a provided option key
counts for a declared group when its normalised form equals the
group's normalised name, or it equals the group's display name
exactly. -/
def optionKeyMatches (opt_key_norm : String) (raw_name : Json) (provided_key : String) : Bool :=
  normalizeStr provided_key == opt_key_norm || pyEqStr raw_name provided_key

def optionProvided (provided : List (String × Json)) (opt_key_norm : String)
    (raw_name : Json) : Bool :=
  provided.any (fun kv => optionKeyMatches opt_key_norm raw_name kv.1)

/-- The required-option loop of `handle_dialog` (src/app.py lines
444-459), for one resolved line item: walk the declared groups in
order and return the first required one no provided key satisfies. -/
def missing_required (entryOptions : List (String × OptMeta))
    (provided : List (String × Json)) : Option (String × OptMeta) :=
  match entryOptions with
  | [] => none
  | (k, meta) :: rest =>
    if meta.required && !(optionProvided provided k meta.raw_name) then some (k, meta)
    else missing_required rest provided


/-! ## The Lex dialog model

The host event and the four response constructors (src/app.py lines
677-723).  The source reads the intent and the session-attribute dict
off the event; because the engine mutates that dict in place and the
response builders see the mutations through the alias, the embedded
builders take the current intent and attributes explicitly. -/

structure SlotValue where
  interpretedValue : String

structure Intent where
  name : String
  slots : List (String × Option SlotValue)
  confirmationState : Option String
  state : Option String

abbrev SessionAttrs := List (String × String)

structure SessionState where
  intent : Intent
  sessionAttributes : Option SessionAttrs

structure Event where
  sessionState : SessionState
  invocationSource : Option String

inductive DialogActionType where
  | elicitSlot (slotToElicit : String)
  | confirmIntent
  | delegate
  | close

structure Message where
  contentType : String
  content : String

structure LexResponse where
  dialogAction : DialogActionType
  intent : Intent
  sessionAttributes : SessionAttrs
  messages : List Message

/-- Python `slots.get(name)`: `None` for a missing or null slot. -/
def slotGet (slots : List (String × Option SlotValue)) (k : String) : Option SlotValue :=
  (dictGet? slots k).getD none

/-- `elicit_slot` (src/app.py lines 677-693): with `reset`, the slots
are nulled and the session attributes dropped. -/
def elicit_slot (intent : Intent) (session_attrs : SessionAttrs)
    (slot_to_elicit : String) (message_content : String) (reset : Bool) : LexResponse :=
  let intent' :=
    if reset then
      { intent with
        slots := [("OrderQuery", none), ("DrinkQuery", none), ("OptionChoice", none)] }
    else intent
  let attrs' := if reset then [] else session_attrs
  ⟨.elicitSlot slot_to_elicit, intent', attrs', [⟨"PlainText", message_content⟩]⟩

/-- `confirm_intent` (src/app.py lines 695-703). -/
def confirm_intent (intent : Intent) (session_attrs : SessionAttrs)
    (message_content : String) : LexResponse :=
  ⟨.confirmIntent, intent, session_attrs, [⟨"PlainText", message_content⟩]⟩

/-- `delegate` (src/app.py lines 705-712); the source sends no
messages. -/
def delegate (intent : Intent) (session_attrs : SessionAttrs) : LexResponse :=
  ⟨.delegate, intent, session_attrs, []⟩

/-- `close_dialog` (src/app.py lines 714-723). -/
def close_dialog (intent : Intent) (session_attrs : SessionAttrs)
    (fulfillment_state : String) (message : Message) : LexResponse :=
  ⟨.close, { intent with state := some fulfillment_state }, session_attrs, [message]⟩

/-- The per-turn environment: the three external collaborators a
dialog turn can consult.  `llm` maps the order text to the completion
service's message content; `embed` is the embedding service; `getMenu`
is the outcome `get_menu()` produces this turn (the cache is
process-global, so within one turn every call returns the same
snapshot — or the same raised error). -/
structure Env where
  llm : String → Except PyErr (Option String)
  embed : String → Except PyErr (List ℚ)
  getMenu : Except PyErr (MenuLookup × List EmbItem)

/-- Substring test, Python `needle in hay`. -/
def listStartsWith : List Char → List Char → Bool
  | [], _ => true
  | _ :: _, [] => false
  | p :: ps, c :: cs => p == c && listStartsWith ps cs

def containsSubList (needle : List Char) : List Char → Bool
  | [] => needle.isEmpty
  | c :: rest => listStartsWith needle (c :: rest) || containsSubList needle rest

def pyInStr (needle hay : String) : Bool := containsSubList needle.toList hay.toList

def pyLowerStr (s : String) : String := String.mk (s.toList.map pyLowerChar)

/-- Short-circuiting `any` over a generator whose element test can
raise. -/
def exceptAny (p : Json → Except PyErr Bool) : List Json → Except PyErr Bool
  | [] => .ok false
  | x :: xs => do
    let b ← p x
    if b then .ok true else exceptAny p xs

/-- A list comprehension whose element test can raise. -/
def exceptFilter (p : Json → Except PyErr Bool) : List Json → Except PyErr (List Json)
  | [] => .ok []
  | x :: xs => do
    let b ← p x
    let rest ← exceptFilter p xs
    .ok (if b then x :: rest else rest)

/-- The food test of src/app.py line 461: a truthy category whose
lowered rendering does not contain `drink`. -/
def isFoodItem (i : Json) : Except PyErr Bool := do
  let c ← pyGet i "category" Json.null
  if pyTruthy c then do
    let c2 ← pyGet i "category" (Json.str "")
    pure (!(pyInStr "drink" (pyLowerStr (pyStr c2))))
  else pure false

/-- The drink test of src/app.py line 462. -/
def isDrinkItem (i : Json) : Except PyErr Bool := do
  let c ← pyGet i "category" Json.null
  if pyTruthy c then do
    let c2 ← pyGet i "category" (Json.str "")
    pure (pyInStr "drink" (pyLowerStr (pyStr c2)))
  else pure false

/-- The summary fragments `f"{quantity} {item_name}"` of the
confirmation messages. -/
def summaryParts : List Json → Except PyErr (List String)
  | [] => .ok []
  | i :: rest => do
    let q ← pyIndex i "quantity"
    let n ← pyIndex i "item_name"
    let parts ← summaryParts rest
    .ok ((pyStr q ++ " " ++ pyStr n) :: parts)

/-- The per-item resolution loop of `handle_dialog` (src/app.py lines
356-425): skip non-dict items and falsy names, coerce the quantity,
resolve through `_fuzzy_find`, merge auto-detected and supplied
options for matches, and keep unmatched items with a null key. -/
noncomputable def buildNormalizedItems (env : Env) (lk : MenuLookup) (cache : List EmbItem)
    (items : List Json) : Except PyErr (List Json) :=
  items.foldlM (fun acc it =>
    match it with
    | Json.obj _ => do
      let parsed_name ← pyGet it "item_name" (Json.str "")
      if pyTruthy parsed_name then do
        let quantityJ ← pyGet it "quantity" (Json.int 1)
        let quantity ← pyToInt quantityJ
        let optionsJ ← pyGet it "options" Json.null
        let options := match optionsJ with
          | Json.obj kvs => kvs
          | _ => []
        let norm := normalize_name parsed_name
        let fr := _fuzzy_find norm lk env.embed cache (6/10 : ℝ)
        let best_key := fr.1.1
        if optStrTruthy best_key then do
          let k := best_key.getD ""
          match dictGet? lk k with
          | none => .error .keyError
          | some menu_entry => do
            let detected_options := _check_if_option_in_item_name parsed_name menu_entry
            let validated_options := options.foldl (fun validated kv =>
              let opt_key := normalizeStr kv.1
              let opt_val := normalizeStr (pyStr kv.2)
              match dictGet? menu_entry.options opt_key with
              | some menu_opt =>
                if menu_opt.choices.contains opt_val then
                  dictInsert validated (keyOfJson menu_opt.raw_name) kv.2
                else dictInsert validated kv.1 kv.2
              | none => dictInsert validated kv.1 kv.2) detected_options
            let item_name ← pyGet menu_entry.raw_item "ItemName" Json.null
            pure (acc ++ [Json.obj [("item_name", item_name),
              ("normalized_key", Json.str k), ("quantity", Json.int quantity),
              ("options", Json.obj validated_options), ("category", menu_entry.category),
              ("price", menu_entry.price), ("item_number", menu_entry.item_number)]])
        else
          pure (acc ++ [Json.obj [("item_name", parsed_name), ("normalized_key", Json.null),
            ("quantity", Json.int quantity), ("options", Json.obj options)]])
      else pure acc
    | _ => pure acc) []

/-- The required-option pass over the resolved items (src/app.py lines
441-459): the first item, in order, owning a missing required group —
with that group — or nothing. -/
def findMissingRequired (lk : MenuLookup) : List Json → Except PyErr (Option (Json × String × OptMeta))
  | [] => .ok none
  | ni :: rest => do
    let nk ← pyGet ni "normalized_key" Json.null
    if pyTruthy nk then do
      let nkj ← pyIndex ni "normalized_key"
      let entry ← (match nkj with
        | Json.str ks =>
          match dictGet? lk ks with
          | some e => Except.ok e
          | none => Except.error PyErr.keyError
        | _ => Except.error PyErr.keyError)
      let providedJ ← pyIndex ni "options"
      let provided ← (match providedJ with
        | Json.obj kvs => Except.ok kvs
        | j => if pyTruthy j then Except.error PyErr.attributeError else Except.ok [])
      match missing_required entry.options provided with
      | some (k, meta) => .ok (some (ni, k, meta))
      | none => findMissingRequired lk rest
    else findMissingRequired lk rest

/-- Lift a raising subcomputation into the parse turn, recording the
session attributes as they stand at the raise (the `except` at the
end of the turn answers with the event's — mutated — attribute
dict). -/
def liftE {α : Type} (attrs : SessionAttrs) : Except PyErr α → Except (PyErr × SessionAttrs) α
  | .ok a => .ok a
  | .error e => .error (e, attrs)

/-- The guarded parse of a fresh order utterance (src/app.py lines
328-475, the body of the `try`): parse, resolve and validate the
items, stamp the one-shot flags, and answer with the next elicitation
or confirmation; falling through (an all-categoryless order) hands
back the updated attributes.  Errors carry the attributes visible to
the enclosing `except`. -/
noncomputable def parseOrderTurn (env : Env) (intent : Intent)
    (session_attrs : SessionAttrs) (raw_order_text : String) :
    Except (PyErr × SessionAttrs) (LexResponse ⊕ SessionAttrs) := do
  let parsed_result := invoke_openrouter_parse (env.llm raw_order_text)
  match parsed_result with
  | Json.obj pkvs =>
    match dictGetD pkvs "order_items" (Json.arr []) with
    | Json.arr order_items => do
      let ml ← liftE session_attrs env.getMenu
      let normalized_items ← liftE session_attrs (buildNormalizedItems env ml.1 ml.2 order_items)
      let session_attrs2 := dictInsert (dictInsert session_attrs "parsedOrder"
          (dumps (Json.obj [("order_items", Json.arr normalized_items)])))
          "initialParseComplete" "true"
      let anyMatched ← liftE session_attrs2 (exceptAny (fun i => do
          let v ← pyGet i "normalized_key" Json.null
          pure (pyTruthy v)) normalized_items)
      if !anyMatched then
        return Sum.inl (elicit_slot intent session_attrs2 "OrderQuery"
          "I\x27m sorry, I couldn\x27t find any of those items on the menu. Could you please tell me your order again?"
          false)
      else do
        let unmatched ← liftE session_attrs2 (exceptFilter (fun i => do
            let v ← pyGet i "normalized_key" Json.null
            pure (!pyTruthy v)) normalized_items)
        match unmatched with
        | u0 :: _ => do
          let uname ← liftE session_attrs2 (pyIndex u0 "item_name")
          return Sum.inl (elicit_slot intent session_attrs2 "OrderQuery"
            ("I couldn\x27t find \x27" ++ pyStr uname ++
             "\x27 on the menu. Could you clarify that part of your order?") false)
        | [] => do
          let miss ← liftE session_attrs2 (findMissingRequired ml.1 normalized_items)
          match miss with
          | some (ni, _, meta) => do
            let session_attrs3 := dictInsert session_attrs2 "currentItemToConfigure" (dumps ni)
            let iname ← liftE session_attrs3 (pyIndex ni "item_name")
            return Sum.inl (elicit_slot intent session_attrs3 "OptionChoice"
              ("For your " ++ pyStr iname ++ ", which " ++ pyStr meta.raw_name ++
               " would you like? Choices: " ++ String.intercalate ", " meta.choices) false)
          | none => do
            let has_food ← liftE session_attrs2 (exceptAny isFoodItem normalized_items)
            let has_drink ← liftE session_attrs2 (exceptAny isDrinkItem normalized_items)
            if has_food && has_drink then do
              let parts ← liftE session_attrs2 (summaryParts normalized_items)
              return Sum.inl (confirm_intent intent session_attrs2
                ("Okay — I have: " ++ String.intercalate ", " parts ++ ". Is that correct?"))
            else if has_food && !has_drink then
              return Sum.inl (elicit_slot intent session_attrs2 "DrinkQuery"
                "I\x27ve got your food order. Would you like anything to drink?" false)
            else if has_drink && !has_food then
              return Sum.inl (elicit_slot intent session_attrs2 "OrderQuery"
                "Okay, I have your drinks. What would you like to eat?" false)
            else return Sum.inr session_attrs2
    | _ =>
      return Sum.inl (elicit_slot intent session_attrs "OrderQuery"
        "I had trouble understanding your order. Could you try again?" false)
  | _ =>
    return Sum.inl (elicit_slot intent session_attrs "OrderQuery"
      "I had trouble understanding your order. Could you try again?" false)

/-- The drink turn of `handle_dialog` (src/app.py lines 477-494):
reload the serialised order, resolve the drink phrase, append a match,
and confirm.  This branch sits outside the `try`, so failures
propagate out of the handler. -/
noncomputable def drinkTurn (env : Env) (intent : Intent) (session_attrs : SessionAttrs)
    (drink_text : String) : Except PyErr LexResponse := do
  let parsed_order ← (match pyJsonLoads (dictGetD session_attrs "parsedOrder" "\x7b\x7d") with
    | some j => Except.ok j
    | none => Except.error PyErr.jsonDecodeError)
  let order_items_j ← pyGet parsed_order "order_items" (Json.arr [])
  let ml ← env.getMenu
  let fr := _fuzzy_find (normalizeStr drink_text) ml.1 env.embed ml.2 (6/10 : ℝ)
  let best_key := fr.1.1
  let order_items ← (match order_items_j with
    | Json.arr xs => Except.ok xs
    | _ => Except.error PyErr.typeError)
  let order_items2 ←
    (if optStrTruthy best_key then do
      let k := best_key.getD ""
      match dictGet? ml.1 k with
      | none => Except.error PyErr.keyError
      | some menu_entry => do
        let item_name ← pyGet menu_entry.raw_item "ItemName" Json.null
        Except.ok (order_items ++ [Json.obj [("item_name", item_name),
          ("normalized_key", Json.str k), ("quantity", Json.int 1),
          ("options", Json.obj []), ("category", menu_entry.category)]])
    else Except.ok order_items)
  let session_attrs2 := dictInsert session_attrs "parsedOrder"
    (dumps (Json.obj [("order_items", Json.arr order_items2)]))
  let parts ← summaryParts order_items2
  .ok (confirm_intent intent session_attrs2
    ("Okay, I have: " ++ String.intercalate ", " parts ++ ". Is that correct?"))

/-- `handle_dialog` (src/app.py lines 309-496): the dialog code hook.
Confirmed turns delegate; denied turns restart from scratch; a pending
configuration item answers the drink question; otherwise the order is
elicited, parsed once (under the one-shot flag), and the drink branch
or a delegate closes the turn. -/
noncomputable def handle_dialog (env : Env) (event : Event) : Except PyErr LexResponse :=
  let intent := event.sessionState.intent
  let slots := intent.slots
  let session_attrs := event.sessionState.sessionAttributes.getD []
  let confirmation_state := intent.confirmationState
  if confirmation_state = some "Confirmed" then
    .ok (delegate intent session_attrs)
  else if confirmation_state = some "Denied" then
    .ok (elicit_slot intent session_attrs "OrderQuery"
      "Okay — let\x27s start over. What would you like to order?" true)
  else if optStrTruthy (dictGet? session_attrs "currentItemToConfigure") then
    .ok (elicit_slot intent (dictPop session_attrs "currentItemToConfigure") "DrinkQuery"
      "Great — anything to drink with that?" false)
  else if (slotGet slots "OrderQuery").isNone then
    .ok (elicit_slot intent session_attrs "OrderQuery"
      "Sure — what would you like to order?" false)
  else
    if (slotGet slots "OrderQuery").isSome &&
        !(optStrTruthy (dictGet? session_attrs "initialParseComplete")) then
      let raw_order_text := ((slotGet slots "OrderQuery").map SlotValue.interpretedValue).getD ""
      match parseOrderTurn env intent session_attrs raw_order_text with
      | .error (_, attrs_at_raise) =>
        .ok (close_dialog intent attrs_at_raise "Failed"
          ⟨"PlainText", "I had trouble understanding your order. Could you try again?"⟩)
      | .ok (Sum.inl resp) => .ok resp
      | .ok (Sum.inr attrs2) =>
        match slotGet slots "DrinkQuery" with
        | some sv => drinkTurn env intent attrs2 sv.interpretedValue
        | none => .ok (delegate intent attrs2)
    else
      match slotGet slots "DrinkQuery" with
      | some sv => drinkTurn env intent session_attrs sv.interpretedValue
      | none => .ok (delegate intent session_attrs)

/-! ## The order-modification loop

The change-application loop of `handle_modification_request`
(lambda_container_project/app.py lines 386-409), over the change
records the modification LLM produced and the line items loaded from
the serialised OrderDocument. -/

/-- The `update` branch's search (container app.py lines 404-409):
replace the first item carrying the `from` key and stop. -/
noncomputable def updateFirst (menu_lookup : MenuLookup) (from_key to_key : String) :
    List Json → Except PyErr (List Json)
  | [] => .ok []
  | item :: rest => do
    let v ← pyGet item "normalized_key" Json.null
    if pyEqStr v from_key then
      match dictGet? menu_lookup to_key with
      | none => Except.error PyErr.keyError
      | some menu_entry => do
        let iname ← pyGet menu_entry.raw_item "ItemName" Json.null
        let qty ← pyIndex item "quantity"
        Except.ok ((Json.obj [("item_name", iname), ("normalized_key", Json.str to_key),
          ("quantity", qty), ("options", Json.obj [])]) :: rest)
    else do
      let rest' ← updateFirst menu_lookup from_key to_key rest
      Except.ok (item :: rest')

/-- One iteration of the change loop (container app.py lines 386-409):
`add` appends a resolved item, `remove` filters out every line item
carrying the resolved key, `update` substitutes the first carrier of
the `from` key; a change whose referenced name does not resolve — or
an unknown action — leaves the items untouched. -/
noncomputable def applyChange (env : Env) (menu_lookup : MenuLookup) (cache : List EmbItem)
    (order_items : List Json) (change : Json) : Except PyErr (List Json) := do
  let action ← pyGet change "action" Json.null
  let item_name ← pyGet change "item_name" (Json.str "")
  if pyEqStr action "add" then
    let fr := _fuzzy_find (normalize_name item_name) menu_lookup env.embed cache (6/10 : ℝ)
    let best_key := fr.1.1
    if optStrTruthy best_key then
      match dictGet? menu_lookup (best_key.getD "") with
      | none => Except.error PyErr.keyError
      | some menu_entry => do
        let iname ← pyGet menu_entry.raw_item "ItemName" Json.null
        let qty ← pyGet change "quantity" (Json.int 1)
        Except.ok (order_items ++ [Json.obj [("item_name", iname),
          ("normalized_key", Json.str (best_key.getD "")), ("quantity", qty),
          ("options", Json.obj [])]])
    else Except.ok order_items
  else if pyEqStr action "remove" then
    let fr := _fuzzy_find (normalize_name item_name) menu_lookup env.embed cache (6/10 : ℝ)
    let best_key := fr.1.1
    if optStrTruthy best_key then
      exceptFilter (fun item => do
        let v ← pyGet item "normalized_key" Json.null
        pure (!(pyEqStr v (best_key.getD "")))) order_items
    else Except.ok order_items
  else if pyEqStr action "update" then do
    let from_item ← pyGet change "from_item" Json.null
    let to_item ← pyGet change "to_item" Json.null
    let fr1 := _fuzzy_find (normalize_name from_item) menu_lookup env.embed cache (6/10 : ℝ)
    let fr2 := _fuzzy_find (normalize_name to_item) menu_lookup env.embed cache (6/10 : ℝ)
    if optStrTruthy fr1.1.1 && optStrTruthy fr2.1.1 then
      updateFirst menu_lookup (fr1.1.1.getD "") (fr2.1.1.getD "") order_items
    else Except.ok order_items
  else Except.ok order_items

/-- The whole change loop: the records applied in order to the
OrderDocument's line items. -/
noncomputable def applyChanges (env : Env) (menu_lookup : MenuLookup) (cache : List EmbItem)
    (order_items : List Json) (changes : List Json) : Except PyErr (List Json) :=
  changes.foldlM (applyChange env menu_lookup cache) order_items

/-! ## Spec-side definitions and concrete fixtures

`specMissing` restates, in the spec's own words, which option group
the required-option check should pick — to be compared with the
embedded loop.  The fixtures below are concrete inputs for witnesses
and counterexamples. -/

/-- The specification's description of an unsatisfied group: required,
and no key of the line item's option mapping matches it by
normalised-key equality or exact display-name equality. -/
def specMissing (provided : List (String × Json)) (p : String × OptMeta) : Bool :=
  p.2.required && !(provided.any (fun kv =>
    normalizeStr kv.1 == p.1 || pyEqStr p.2.raw_name kv.1))

/-- The catalog key a line item carries (`item.get('normalized_key')`
on a dict, null otherwise), total form used to state the remove
filter. -/
def lineItemKey (it : Json) : Json :=
  match it with
  | .obj kvs => dictGetD kvs "normalized_key" Json.null
  | _ => Json.null

/-- A minimal catalog entry fixture. -/
def demoEntry : MenuEntry :=
  ⟨Json.obj [("ItemName", Json.str "Coke"), ("Category", Json.str "Drinks")],
    "coke", [], Json.str "Drinks", Json.null, Json.null⟩

/-- An embedding service that always fails. -/
def noEmbed : String → Except PyErr (List ℚ) := fun _ => .error .other

/-- An embedding service answering the zero vector. -/
def zeroEmbed : String → Except PyErr (List ℚ) := fun _ => .ok [0]

/-- An environment none of whose collaborators answer. -/
def demoEnv : Env := ⟨fun _ => .error .other, noEmbed, .error .other⟩

/-- A dialog event fixture whose confirmation state is `Denied`. -/
def demoIntentDenied : Intent :=
  ⟨"OrderFood", [("OrderQuery", some ⟨"two green dragon rolls"⟩)], some "Denied", none⟩

def demoEventDenied : Event :=
  ⟨⟨demoIntentDenied, some [("parsedOrder", "\x7b\x7d"), ("initialParseComplete", "true")]⟩,
    some "DialogCodeHook"⟩

/-! ### Facts about the normaliser -/

theorem isPySpaceNat_eq_false {n : Nat} (h1 : 33 ≤ n) (h2 : n ≤ 132) :
    isPySpaceNat n = false := by
  simp only [isPySpaceNat, Bool.or_eq_false_iff, beq_eq_false_iff_ne, ne_eq,
    Bool.and_eq_false_iff, decide_eq_false_iff_not, not_le]
  omega

theorem toNat_pyLowerChar (c : Char) :
    (pyLowerChar c).toNat =
      if 65 ≤ c.toNat ∧ c.toNat ≤ 90 then c.toNat + 32 else c.toNat := by
  unfold pyLowerChar
  split
  case isTrue h =>
    have hv : (c.toNat + 32).isValidChar := Or.inl (by omega)
    show (Char.ofNat (c.toNat + 32)).toNat = c.toNat + 32
    unfold Char.ofNat
    rw [dif_pos hv]
    rfl
  case isFalse h => rfl

theorem pyLowerChar_eq_self {c : Char} (h : ¬(65 ≤ c.toNat ∧ c.toNat ≤ 90)) :
    pyLowerChar c = c := by
  unfold pyLowerChar
  exact if_neg h

theorem pyLowerChar_idem (c : Char) :
    pyLowerChar (pyLowerChar c) = pyLowerChar c := by
  by_cases h : 65 ≤ c.toNat ∧ c.toNat ≤ 90
  · apply pyLowerChar_eq_self
    rw [toNat_pyLowerChar, if_pos h]
    omega
  · rw [pyLowerChar_eq_self h, pyLowerChar_eq_self h]

theorem isPySpace_pyLowerChar (c : Char) :
    isPySpace (pyLowerChar c) = isPySpace c := by
  by_cases h : 65 ≤ c.toNat ∧ c.toNat ≤ 90
  · have h1 : (pyLowerChar c).toNat = c.toNat + 32 := by
      rw [toNat_pyLowerChar, if_pos h]
    simp only [isPySpace, h1]
    rw [isPySpaceNat_eq_false (by omega) (by omega),
      isPySpaceNat_eq_false (by omega) (by omega)]
  · rw [pyLowerChar_eq_self h]

theorem isPySpace_space : isPySpace ' ' = true := by decide

theorem pyLowerChar_space : pyLowerChar ' ' = ' ' := by decide

theorem collapseWs_nil : collapseWs [] = [] := rfl

/-- Collapsing a list that starts with a non-space character keeps that
character at the head. -/
theorem head_collapseWs_nonspace {c : Char} (rest : List Char)
    (h : isPySpace c = false) :
    (collapseWs (c :: rest)).head? = some c := by
  cases rest with
  | nil => simp [collapseWs, h]
  | cons c2 rs => simp [collapseWs, h]

/-- Every character the collapse emits is a space it introduced or a
character of its input. -/
theorem mem_collapseWs {c : Char} {l : List Char} (h : c ∈ collapseWs l) :
    c = ' ' ∨ c ∈ l := by
  induction l with
  | nil => simp [collapseWs] at h
  | cons c1 tl ih =>
    cases tl with
    | nil =>
      by_cases hs : isPySpace c1
      · simp [collapseWs, hs] at h
        exact Or.inl h
      · simp [collapseWs, hs] at h
        simp [h]
    | cons c2 rest =>
      by_cases h1 : isPySpace c1
      · by_cases h2 : isPySpace c2
        · simp only [collapseWs, h1, h2, and_self, ite_true] at h
          rcases ih h with h' | h'
          · exact Or.inl h'
          · right; exact List.mem_cons_of_mem _ h'
        · simp only [collapseWs, h1, h2, ite_true, ite_false, and_false] at h
          rcases List.mem_cons.mp h with h' | h'
          · exact Or.inl h'
          · rcases ih h' with h'' | h''
            · exact Or.inl h''
            · right; exact List.mem_cons_of_mem _ h''
      · simp only [collapseWs, h1, ite_false] at h
        rcases List.mem_cons.mp h with h' | h'
        · right; simp [h']
        · rcases ih h' with h'' | h''
          · exact Or.inl h''
          · right; exact List.mem_cons_of_mem _ h''

/-- The collapse never produces two adjacent whitespace characters, and
every whitespace character it produces is the single ASCII space. -/
theorem collapseWs_collapsed (l : List Char) :
    ((collapseWs l).Chain' (fun a b => ¬(isPySpace a = true ∧ isPySpace b = true))) ∧
      (∀ c ∈ collapseWs l, isPySpace c = true → c = ' ') := by
  induction l with
  | nil => simp [collapseWs]
  | cons c1 tl ih =>
    cases tl with
    | nil =>
      by_cases hs : isPySpace c1 <;> simp [collapseWs, hs]
    | cons c2 rest =>
      by_cases h1 : isPySpace c1
      · by_cases h2 : isPySpace c2
        · simpa [collapseWs, h1, h2] using ih
        · simp only [collapseWs, h1, h2, ite_true, ite_false, and_false]
          refine ⟨List.chain'_cons'.mpr ⟨?_, ih.1⟩, ?_⟩
          · intro y hy hcon
            rw [head_collapseWs_nonspace rest (by simpa using h2)] at hy
            cases hy
            exact h2 hcon.2
          · intro c hc hcsp
            rcases List.mem_cons.mp hc with h' | h'
            · exact h'
            · exact ih.2 c h' hcsp
      · simp only [collapseWs, h1, ite_false]
        refine ⟨List.chain'_cons'.mpr ⟨?_, ih.1⟩, ?_⟩
        · intro y _ hcon
          exact h1 hcon.1
        · intro c hc hcsp
          rcases List.mem_cons.mp hc with h' | h'
          · exact absurd hcsp (by simpa [h'] using h1)
          · exact ih.2 c h' hcsp

/-- Heads after `dropWhile`: the head of the remainder never satisfies
the predicate. -/
theorem head_dropWhile_false {p : Char → Bool} {l : List Char} {c : Char}
    (h : (l.dropWhile p).head? = some c) : p c = false := by
  induction l with
  | nil => simp at h
  | cons d tl ih =>
    rw [List.dropWhile_cons] at h
    split at h
    · exact ih h
    · next hd => simp at h; cases h; simpa using hd

theorem dropWhile_eq_self_of_head {p : Char → Bool} {l : List Char}
    (h : ∀ c, l.head? = some c → p c = false) : l.dropWhile p = l := by
  cases l with
  | nil => rfl
  | cons c cs =>
    rw [List.dropWhile_cons, if_neg]
    simp [h c rfl]

theorem collapseWs_ne_nil {l : List Char} (h : l ≠ []) : collapseWs l ≠ [] := by
  induction l with
  | nil => exact absurd rfl h
  | cons c1 tl ih =>
    cases tl with
    | nil =>
      by_cases hs : isPySpace c1 <;> simp [collapseWs, hs]
    | cons c2 rest =>
      by_cases h1 : isPySpace c1
      · by_cases h2 : isPySpace c2
        · simp only [collapseWs, h1, h2, and_self, ite_true]
          exact ih (by simp)
        · simp [collapseWs, h1, h2]
      · simp [collapseWs, h1]

/-- Collapsing preserves a whitespace-free last character. -/
theorem getLast_collapseWs {l : List Char}
    (h : ∀ c, l.getLast? = some c → isPySpace c = false) :
    ∀ c, (collapseWs l).getLast? = some c → isPySpace c = false := by
  induction l with
  | nil => exact h
  | cons c1 tl ih =>
    cases tl with
    | nil =>
      intro c hc
      have hl : isPySpace c1 = false := h c1 (by simp)
      simp [collapseWs, hl] at hc
      cases hc
      exact hl
    | cons c2 rest =>
      have htail : ∀ c, (c2 :: rest).getLast? = some c → isPySpace c = false := by
        intro c hc
        exact h c (by rw [List.getLast?_cons_cons]; exact hc)
      have hne : collapseWs (c2 :: rest) ≠ [] := collapseWs_ne_nil (by simp)
      rcases List.exists_cons_of_ne_nil hne with ⟨x, xs, hx⟩
      by_cases h1 : isPySpace c1
      · by_cases h2 : isPySpace c2
        · intro c hc
          simp only [collapseWs, h1, h2, and_self, ite_true] at hc
          exact ih htail c hc
        · intro c hc
          have hb2 : isPySpace c2 = false := Bool.eq_false_iff.mpr h2
          simp only [collapseWs, h1, hb2, Bool.false_eq_true, and_false,
            ite_false, ite_true, hx, List.getLast?_cons_cons] at hc
          exact ih htail c (by rw [hx]; exact hc)
      · intro c hc
        have hb1 : isPySpace c1 = false := by simpa using h1
        simp only [collapseWs, hb1, Bool.false_eq_true, ite_false, hx,
          List.getLast?_cons_cons] at hc
        exact ih htail c (by rw [hx]; exact hc)

/-- A list whose head and last characters are not whitespace is fixed
by `stripWs`. -/
theorem stripWs_eq_self {l : List Char}
    (hh : ∀ c, l.head? = some c → isPySpace c = false)
    (hl : ∀ c, l.getLast? = some c → isPySpace c = false) :
    stripWs l = l := by
  unfold stripWs
  rw [dropWhile_eq_self_of_head hh]
  rw [dropWhile_eq_self_of_head (by
    intro c hc
    rw [List.head?_reverse] at hc
    exact hl c hc)]
  exact List.reverse_reverse l

theorem map_eq_self_of_mem {f : Char → Char} {l : List Char}
    (h : ∀ c ∈ l, f c = c) : l.map f = l := by
  induction l with
  | nil => rfl
  | cons c cs ih =>
    simp only [List.map_cons, h c (by simp), ih (fun d hd => h d (by simp [hd]))]

/-- A list with no two adjacent whitespace characters, all of whose
whitespace is the ASCII space, is fixed by `collapseWs`. -/
theorem collapseWs_eq_self {l : List Char}
    (hch : l.Chain' (fun a b => ¬(isPySpace a = true ∧ isPySpace b = true)))
    (hsp : ∀ c ∈ l, isPySpace c = true → c = ' ') :
    collapseWs l = l := by
  induction l with
  | nil => rfl
  | cons c1 tl ih =>
    cases tl with
    | nil =>
      by_cases hs : isPySpace c1
      · have : c1 = ' ' := hsp c1 (by simp) hs
        simp [collapseWs, hs, this]
      · simp [collapseWs, hs]
    | cons c2 rest =>
      have hpair : ¬(isPySpace c1 = true ∧ isPySpace c2 = true) :=
        (List.chain'_cons.mp hch).1
      have hch2 : (c2 :: rest).Chain'
          (fun a b => ¬(isPySpace a = true ∧ isPySpace b = true)) :=
        (List.chain'_cons.mp hch).2
      have hsp2 : ∀ c ∈ c2 :: rest, isPySpace c = true → c = ' ' := by
        intro c hc hs
        exact hsp c (List.mem_cons_of_mem _ hc) hs
      by_cases h1 : isPySpace c1
      · have hb2 : isPySpace c2 = false := by
          rcases Bool.eq_false_or_eq_true (isPySpace c2) with h' | h'
          · exact absurd ⟨h1, h'⟩ hpair
          · exact h'
        have hc1 : c1 = ' ' := hsp c1 (by simp) h1
        simp only [collapseWs, h1, hb2, Bool.false_eq_true, ite_false, ite_true]
        rw [ih hch2 hsp2, hc1]
      · have hb1 : isPySpace c1 = false := by simpa using h1
        simp only [collapseWs, hb1, Bool.false_eq_true, ite_false]
        rw [ih hch2 hsp2]

theorem toList_mk (l : List Char) : (String.mk l).toList = l := rfl

/-- Dropping a prefix keeps the last element as long as something is
left. -/
theorem getLast?_dropWhile {p : Char → Bool} {l : List Char}
    (h : l.dropWhile p ≠ []) : (l.dropWhile p).getLast? = l.getLast? := by
  induction l with
  | nil => simp at h
  | cons c cs ih =>
    rw [List.dropWhile_cons]
    split
    · next hp =>
      rw [List.dropWhile_cons, if_pos hp] at h
      rw [ih h]
      have hcs : cs ≠ [] := by
        intro he
        rw [he] at h
        simp at h
      rcases List.exists_cons_of_ne_nil hcs with ⟨x, xs, hx⟩
      rw [hx, List.getLast?_cons_cons]
    · rfl

theorem stripWs_lastOk (l : List Char) :
    ∀ c, (stripWs l).getLast? = some c → isPySpace c = false := by
  intro c hc
  unfold stripWs at hc
  rw [List.getLast?_reverse] at hc
  exact head_dropWhile_false hc

theorem stripWs_headOk (l : List Char) :
    ∀ c, (stripWs l).head? = some c → isPySpace c = false := by
  intro c hc
  unfold stripWs at hc
  rw [List.head?_reverse] at hc
  have hne : (l.dropWhile isPySpace).reverse.dropWhile isPySpace ≠ [] := by
    intro he
    rw [he] at hc
    simp at hc
  rw [getLast?_dropWhile hne, List.getLast?_reverse] at hc
  exact head_dropWhile_false hc

/-- Idempotence of the string normaliser: the output of
`_normalize_name` is its own normal form. -/
theorem normalizeStr_idem (s : String) :
    normalizeStr (normalizeStr s) = normalizeStr s := by
  unfold normalizeStr
  rw [toList_mk]
  have hmapHead : ∀ c, ((stripWs s.toList).map pyLowerChar).head? = some c →
      isPySpace c = false := by
    intro c hc
    rw [List.head?_map] at hc
    rcases Option.map_eq_some'.mp hc with ⟨d, hd, hdc⟩
    rw [← hdc, isPySpace_pyLowerChar]
    exact stripWs_headOk s.toList d hd
  have hmapLast : ∀ c, ((stripWs s.toList).map pyLowerChar).getLast? = some c →
      isPySpace c = false := by
    intro c hc
    rw [List.getLast?_map] at hc
    rcases Option.map_eq_some'.mp hc with ⟨d, hd, hdc⟩
    rw [← hdc, isPySpace_pyLowerChar]
    exact stripWs_lastOk s.toList d hd
  set Y := (stripWs s.toList).map pyLowerChar with hY
  set L := collapseWs Y with hL
  have hLhead : ∀ c, L.head? = some c → isPySpace c = false := by
    intro c hc
    cases hY' : Y with
    | nil =>
      rw [hL, hY'] at hc
      simp [collapseWs] at hc
    | cons y ys =>
      have hy : isPySpace y = false := hmapHead y (by rw [hY']; rfl)
      rw [hL, hY', head_collapseWs_nonspace ys hy] at hc
      cases hc
      exact hy
  have hLlast : ∀ c, L.getLast? = some c → isPySpace c = false := by
    rw [hL]
    exact getLast_collapseWs (by
      intro c hc
      exact hmapLast c (by rw [hY] at hc ⊢; exact hc))
  rw [stripWs_eq_self hLhead hLlast]
  rw [map_eq_self_of_mem (by
    intro c hc
    rcases mem_collapseWs hc with h' | h'
    · rw [h']
      exact pyLowerChar_space
    · rcases List.mem_map.mp h' with ⟨d, _, hdc⟩
      rw [← hdc]
      exact pyLowerChar_idem d)]
  rw [collapseWs_eq_self (collapseWs_collapsed Y).1 (collapseWs_collapsed Y).2]

/-! ## Claim theorems -/

/-- Claim C4: the name normaliser is idempotent
(`normalize(normalize(s)) = normalize(s)` for every string), it
case-folds and collapses whitespace runs — on
`"  Green   Dragon  Roll "` it yields `"green dragon roll"` — and it
maps every non-string input to the empty string. -/
theorem normalize_name_idempotent_total :
    (∀ s : String, normalizeStr (normalizeStr s) = normalizeStr s) ∧
    normalize_name (Json.str "  Green   Dragon  Roll ") = "green dragon roll" ∧
    (∀ v : Json, jIsStr v = false → normalize_name v = "") := by
  refine ⟨normalizeStr_idem, by rfl, ?_⟩
  intro v hv
  cases v <;> first | rfl | simp [jIsStr] at hv

/-- Witness for C4 at concrete inputs. -/
theorem normalize_name_idempotent_total_witness :
    normalizeStr (normalizeStr " A  b\tC ") = normalizeStr " A  b\tC " ∧
    normalize_name (Json.int 7) = "" :=
  ⟨normalize_name_idempotent_total.1 " A  b\tC ",
   normalize_name_idempotent_total.2.2 (Json.int 7) rfl⟩

theorem missing_required_eq_find? (opts : List (String × OptMeta))
    (provided : List (String × Json)) :
    missing_required opts provided = opts.find? (specMissing provided) := by
  induction opts with
  | nil => rfl
  | cons p rest ih =>
    rcases p with ⟨k, meta⟩
    have hs : specMissing provided (k, meta) =
        (meta.required && !(optionProvided provided k meta.raw_name)) := rfl
    rw [List.find?_cons, hs]
    unfold missing_required
    cases hb : meta.required && !(optionProvided provided k meta.raw_name)
    · simp only [Bool.false_eq_true, if_false]
      exact ih
    · simp

/-- Claim C3: the required-option check returns the first option group
in declaration order that is required and unsatisfied, where a
provided option key satisfies a group by normalised-key equality or by
exact display-name equality; when every required group is satisfied it
returns nothing, so no elicitation is triggered for the item. -/
theorem missing_required_first_in_order (opts : List (String × OptMeta))
    (provided : List (String × Json)) :
    missing_required opts provided = opts.find? (specMissing provided) ∧
    ((∀ p ∈ opts, p.2.required = true → optionProvided provided p.1 p.2.raw_name = true) →
      missing_required opts provided = none) := by
  refine ⟨missing_required_eq_find? opts provided, ?_⟩
  intro hall
  rw [missing_required_eq_find? opts provided]
  apply List.find?_eq_none.mpr
  intro p hp
  intro hsm
  have hs : specMissing provided p =
      (p.2.required && !(optionProvided provided p.1 p.2.raw_name)) := rfl
  rw [hs] at hsm
  cases hreq : p.2.required
  · rw [hreq] at hsm
    simp at hsm
  · have hopt := hall p hp hreq
    rw [hreq, hopt] at hsm
    simp at hsm

/-- Witness for C3: with groups `A (required)` and `B (optional)` and
no provided options the check names `A`; with `A` satisfied by its
exact display name it names nothing. -/
theorem missing_required_first_in_order_witness :
    missing_required
        [("a", ⟨Json.str "A", ["x", "y"], true⟩), ("b", ⟨Json.str "B", [], false⟩)] [] =
      List.find? (specMissing [])
        [("a", ⟨Json.str "A", ["x", "y"], true⟩), ("b", ⟨Json.str "B", [], false⟩)] ∧
    missing_required [("a", ⟨Json.str "A", ["x", "y"], true⟩)] [("A", Json.str "x")] = none :=
  ⟨(missing_required_first_in_order _ _).1,
   (missing_required_first_in_order
      [("a", ⟨Json.str "A", ["x", "y"], true⟩)] [("A", Json.str "x")]).2 (by decide)⟩

/-- Counterexample to claim C1 as stated: the whitespace phrase `"   "`
normalises to the empty string, and `_build_menu_lookup` keys a
catalog record whose `ItemName` is truthy whitespace under exactly
that empty string — yet `_fuzzy_find` answers no-match with score 0,
because its empty-phrase guard precedes the exact-match lookup,
rather than that key with score 1.0. -/
theorem fuzzy_exact_match_counterexample :
    normalizeStr "   " = "" ∧
    _build_menu_lookup [Json.obj [("ItemName", Json.str " ")]] =
      .ok [("", ⟨Json.obj [("ItemName", Json.str " ")], "", [],
        Json.null, Json.null, Json.null⟩)] ∧
    dictContains [("", (⟨Json.obj [("ItemName", Json.str " ")], "", [],
      Json.null, Json.null, Json.null⟩ : MenuEntry))] "" = true ∧
    _fuzzy_find (normalizeStr "   ")
      [("", ⟨Json.obj [("ItemName", Json.str " ")], "", [],
        Json.null, Json.null, Json.null⟩)]
      noEmbed [] (6/10 : ℝ) = ((none, 0), 0) :=
  ⟨rfl, rfl, rfl, rfl⟩

/-- Claim C1 (amended): for every phrase whose normalised form is a
nonempty key of the lookup table, `_fuzzy_find` returns that key with
score exactly 1.0 and never consults the embedding service, whatever
the embeddings list, the cutoff and the service itself. -/
theorem fuzzy_exact_match_short_circuits (phrase : String) (lookup : MenuLookup)
    (embed : String → Except PyErr (List ℚ)) (cache : List EmbItem) (cutoff : ℝ)
    (hne : normalizeStr phrase ≠ "")
    (hmem : dictContains lookup (normalizeStr phrase) = true) :
    _fuzzy_find (normalizeStr phrase) lookup embed cache cutoff =
      ((some (normalizeStr phrase), 1), 0) := by
  unfold _fuzzy_find
  rw [if_neg hne, if_pos hmem]

/-- Witness for C1: `"Coke"` against a catalog holding `"coke"`. -/
theorem fuzzy_exact_match_short_circuits_witness :
    _fuzzy_find (normalizeStr "Coke") [("coke", demoEntry)] noEmbed [] (6/10 : ℝ) =
      ((some (normalizeStr "Coke"), 1), 0) :=
  fuzzy_exact_match_short_circuits "Coke" [("coke", demoEntry)] noEmbed [] (6/10 : ℝ)
    (by decide) rfl

/-- Claim C5: in the similarity path (non-empty phrase, no exact
match, embedding obtained), a best score exactly equal to the cutoff
is accepted — the selected key and that score are returned — while a
best score strictly below the cutoff yields no-match with score 0;
for every query vector, embeddings list and cutoff. -/
theorem fuzzy_cutoff_boundary (name : String) (lookup : MenuLookup)
    (embed : String → Except PyErr (List ℚ)) (cache : List EmbItem) (cutoff : ℝ)
    (q : List ℚ) (hne : name ≠ "") (hnotin : dictContains lookup name = false)
    (hembed : embed name = .ok q) :
    ((bestEmbedding q cache).1 = cutoff →
      _fuzzy_find name lookup embed cache cutoff =
        (((bestEmbedding q cache).2, (bestEmbedding q cache).1), 1)) ∧
    ((bestEmbedding q cache).1 < cutoff →
      _fuzzy_find name lookup embed cache cutoff = ((none, 0), 1)) := by
  unfold _fuzzy_find
  rw [if_neg hne, if_neg (by rw [hnotin]; exact Bool.false_ne_true), hembed]
  constructor
  · intro he
    show (if (bestEmbedding q cache).1 ≥ cutoff then
        (((bestEmbedding q cache).2, (bestEmbedding q cache).1), 1)
      else ((none, 0), 1)) =
      (((bestEmbedding q cache).2, (bestEmbedding q cache).1), 1)
    rw [if_pos (ge_of_eq he)]
  · intro hlt
    show (if (bestEmbedding q cache).1 ≥ cutoff then
        (((bestEmbedding q cache).2, (bestEmbedding q cache).1), 1)
      else ((none, 0), 1)) = ((none, 0), 1)
    rw [if_neg (not_le.mpr hlt)]

/-- Witness for C5: with the zero query vector and one zero-vector
cache entry the best score is 0 (the zero-norm guard); cutoff 0
accepts it, cutoff 1 rejects it. -/
theorem fuzzy_cutoff_boundary_witness :
    _fuzzy_find "x" [] zeroEmbed [⟨"a", [0]⟩] (0 : ℝ) = ((some "a", 0), 1) ∧
    _fuzzy_find "x" [] zeroEmbed [⟨"a", [0]⟩] (1 : ℝ) = ((none, 0), 1) := by
  have hbest : bestEmbedding [(0 : ℚ)] [⟨"a", [0]⟩] = ((0 : ℝ), some "a") := by
    simp only [bestEmbedding, List.foldl_cons, List.foldl_nil]
    rw [show cosSim [(0 : ℚ)] [(0 : ℚ)] = 0 from by
      simp [cosSim, normQ, dotQ, Real.sqrt_zero]]
    norm_num
  constructor
  · have h := (fuzzy_cutoff_boundary "x" [] zeroEmbed [⟨"a", [0]⟩] (0 : ℝ) [0]
      (by decide) rfl rfl).1 (by rw [hbest])
    rw [hbest] at h
    exact h
  · have h := (fuzzy_cutoff_boundary "x" [] zeroEmbed [⟨"a", [0]⟩] (1 : ℝ) [0]
      (by decide) rfl rfl).2 (by rw [hbest]; norm_num)
    exact h

/-- Claim C2: the order parser degrades gracefully.  Whenever the
completion's text yields no extractable JSON, or extracts to a
non-object (such as a JSON array), or extracts to an object whose
`order_items` is missing or not a list, the parsed result carries an
empty item list; and a completion call that raises also lands on the
empty result — no path raises to the caller. -/
theorem parser_degrades_gracefully (t : String) :
    (_extract_json_from_text t = none →
      orderItemsOf (invoke_openrouter_parse (.ok (some t))) = []) ∧
    (∀ s j, _extract_json_from_text t = some s → pyJsonLoads s = some j →
      jIsObj j = false →
      orderItemsOf (invoke_openrouter_parse (.ok (some t))) = []) ∧
    (∀ s kvs, _extract_json_from_text t = some s →
      pyJsonLoads s = some (Json.obj kvs) →
      (∀ v, dictGet? kvs "order_items" = some v → jIsArr v = false) →
      orderItemsOf (invoke_openrouter_parse (.ok (some t))) = []) ∧
    (∀ e : PyErr, invoke_openrouter_parse (.error e) = Json.obj []) := by
  refine ⟨?_, ?_, ?_, fun _ => rfl⟩
  · intro h
    simp [invoke_openrouter_parse, h, orderItemsOf, dictGet?]
  · intro s j hs hj hobj
    simp only [invoke_openrouter_parse, hs]
    by_cases hse : s = ""
    · rw [if_pos hse]
      rfl
    · rw [if_neg hse, hj]
      cases j <;> simp [jIsObj] at hobj ⊢ <;> rfl
  · intro s kvs hs hj hitems
    simp only [invoke_openrouter_parse, hs]
    by_cases hse : s = ""
    · rw [if_pos hse]
      rfl
    · rw [if_neg hse, hj]
      cases hget : dictGet? kvs "order_items" with
      | none => simp [hget, orderItemsOf, dictGet?]
      | some v =>
        have hv := hitems v hget
        cases v <;> simp [jIsArr] at hv ⊢ <;> simp [hget, orderItemsOf, dictGet?]

/-- Witness for C2 on the three malformed shapes: prose with no JSON,
a JSON array, and an object whose `order_items` is a string. -/
theorem parser_degrades_gracefully_witness :
    orderItemsOf (invoke_openrouter_parse (.ok (some "no json here"))) = [] ∧
    orderItemsOf (invoke_openrouter_parse (.ok (some "[\"a\", 2]"))) = [] ∧
    orderItemsOf (invoke_openrouter_parse
      (.ok (some "\x7b\"order_items\": \"gyoza\"\x7d"))) = [] :=
  ⟨(parser_degrades_gracefully "no json here").1 rfl,
   (parser_degrades_gracefully "[\"a\", 2]").2.1 "[\"a\", 2]"
     (Json.arr [Json.str "a", Json.int 2]) rfl rfl rfl,
   (parser_degrades_gracefully "\x7b\"order_items\": \"gyoza\"\x7d").2.2.1
     "\x7b\"order_items\": \"gyoza\"\x7d" [("order_items", Json.str "gyoza")] rfl rfl
     (by intro v hv; cases hv; rfl)⟩

/-- Counterexample to claim C9 as stated: the text
`note {"a": "x}y"} end` contains exactly one valid JSON object —
`{"a": "x}y"}`, whose string literal holds a closing brace — yet
extraction returns nothing: the brace count reaches zero inside the
string literal, the truncated candidate fails to parse, and the
scanner aborts. -/
theorem extract_brace_in_literal_counterexample :
    "note \x7b\"a\": \"x\x7dy\"\x7d end" =
      "note " ++ "\x7b\"a\": \"x\x7dy\"\x7d" ++ " end" ∧
    (pyJsonLoads "\x7b\"a\": \"x\x7dy\"\x7d").isSome = true ∧
    _extract_json_from_text "note \x7b\"a\": \"x\x7dy\"\x7d end" = none :=
  ⟨rfl, rfl, rfl⟩

/-- Claim C9 (amended): when the input text is in its entirety a valid
JSON value, extraction returns the whole text — including when a brace
character appears inside one of the object's string literals; and
whatever extraction returns always parses as JSON.  For a
prose-surrounded object the naive brace count can stop inside a
string literal, in which case extraction returns nothing rather than
the object's text. -/
theorem extract_json_whole_and_sound :
    (∀ t : String, (pyJsonLoads t).isSome = true → _extract_json_from_text t = some t) ∧
    (∀ t s : String, _extract_json_from_text t = some s → (pyJsonLoads s).isSome = true) := by
  constructor
  · intro t ht
    have hne : t ≠ "" := by
      intro he
      rw [he] at ht
      exact absurd ht (by decide)
    unfold _extract_json_from_text
    rw [if_neg hne, if_pos ht]
  · intro t s h
    unfold _extract_json_from_text at h
    by_cases hne : t = ""
    · rw [if_pos hne] at h
      cases h
    · rw [if_neg hne] at h
      by_cases hw : (pyJsonLoads t).isSome = true
      · rw [if_pos hw] at h
        cases h
        exact hw
      · rw [if_neg hw] at h
        cases hdrop : t.toList.dropWhile (fun c => c != '\x7b') with
        | nil =>
          rw [hdrop] at h
          cases h
        | cons c rest =>
          rw [hdrop] at h
          have h' : (match braceScan (c :: rest) [] 0 with
            | none => (none : Option String)
            | some cand =>
              if (pyJsonLoads (String.mk cand)).isSome = true then some (String.mk cand)
              else none) = some s := h
          cases hscan : braceScan (c :: rest) [] 0 with
          | none =>
            rw [hscan] at h'
            cases h'
          | some cand =>
            rw [hscan] at h'
            have h2 : (if (pyJsonLoads (String.mk cand)).isSome = true
                then some (String.mk cand) else none) = some s := h'
            by_cases hv : (pyJsonLoads (String.mk cand)).isSome = true
            · rw [if_pos hv] at h2
              cases h2
              exact hv
            · rw [if_neg hv] at h2
              cases h2

/-- Witness for C9: the lone object with a brace inside its string
literal is extracted whole, and what was extracted parses. -/
theorem extract_json_whole_and_sound_witness :
    _extract_json_from_text "\x7b\"a\": \"x\x7dy\"\x7d" =
      some "\x7b\"a\": \"x\x7dy\"\x7d" ∧
    (pyJsonLoads "\x7b\"a\": \"x\x7dy\"\x7d").isSome = true :=
  ⟨extract_json_whole_and_sound.1 "\x7b\"a\": \"x\x7dy\"\x7d" rfl,
   extract_json_whole_and_sound.2 "\x7b\"a\": \"x\x7dy\"\x7d" "\x7b\"a\": \"x\x7dy\"\x7d"
     (extract_json_whole_and_sound.1 "\x7b\"a\": \"x\x7dy\"\x7d" rfl)⟩

/-- Claim C7: on a turn whose confirmation state is `Denied`, whatever
the OrderDocument and the rest of the session hold and whatever the
collaborators would answer, `handle_dialog` returns an `ElicitSlot`
action for the order slot with an empty session-attribute map and all
three slots cleared — the order restarts from scratch. -/
theorem denied_restarts_order (env : Env) (event : Event)
    (h : event.sessionState.intent.confirmationState = some "Denied") :
    handle_dialog env event = .ok
      ⟨.elicitSlot "OrderQuery",
       { event.sessionState.intent with
         slots := [("OrderQuery", none), ("DrinkQuery", none), ("OptionChoice", none)] },
       [],
       [⟨"PlainText", "Okay — let\x27s start over. What would you like to order?"⟩]⟩ := by
  simp only [handle_dialog]
  rw [h]
  rw [if_neg (by decide), if_pos rfl]
  simp [elicit_slot, h]

/-- Witness for C7 at a concrete denied event carrying a non-empty
serialised order. -/
theorem denied_restarts_order_witness :
    handle_dialog demoEnv demoEventDenied = .ok
      ⟨.elicitSlot "OrderQuery",
       { demoEventDenied.sessionState.intent with
         slots := [("OrderQuery", none), ("DrinkQuery", none), ("OptionChoice", none)] },
       [],
       [⟨"PlainText", "Okay — let\x27s start over. What would you like to order?"⟩]⟩ :=
  denied_restarts_order demoEnv demoEventDenied rfl

/-- Claim C8: a `get_menu` call without forced refresh, while a
snapshot exists and the elapsed time since the last refresh does not
exceed the TTL, consults the catalog store not at all and returns the
cached triple with the cache state — timestamp included — unchanged. -/
theorem get_menu_cache_hit (now ttl : Int) (scan : Except PyErr (List Json))
    (st : MenuCacheState) (r : List Json)
    (hraw : st.menu_raw = some r) (httl : now - st.menu_cache_timestamp ≤ ttl) :
    get_menu false now ttl scan st =
      (st, false, .ok (r, st.menu_lookup, st.menu_embeddings_cache)) := by
  unfold get_menu
  rw [if_neg (by
    intro hcon
    rcases hcon with h1 | h2 | h3
    · exact Bool.false_ne_true h1
    · rw [hraw] at h2
      simp at h2
    · exact absurd h3 (not_lt.mpr httl))]
  rw [hraw]
  rfl

/-- Witness for C8: a warm cache, ten seconds old against a 300-second
TTL, with a failing store underneath. -/
theorem get_menu_cache_hit_witness :
    get_menu false 110 300 (.error .other)
        ⟨100, some [], some [("coke", demoEntry)], some []⟩ =
      (⟨100, some [], some [("coke", demoEntry)], some []⟩, false,
        .ok ([], some [("coke", demoEntry)], some [])) :=
  get_menu_cache_hit 110 300 (.error .other)
    ⟨100, some [], some [("coke", demoEntry)], some []⟩ [] rfl (by norm_num)

theorem pyEqStr_eq {j : Json} {t : String} (h : pyEqStr j t = true) : j = Json.str t := by
  cases j <;> simp [pyEqStr] at h ⊢
  exact h

/-- Claim C6: a `remove` — or `update` — change record whose
referenced item name resolves to no catalog entry leaves the
OrderDocument's line items exactly as they were: `applyChange` returns
them unchanged, whatever they hold. -/
theorem modification_unresolved_change_noop (env : Env) (lk : MenuLookup)
    (cache : List EmbItem) (items : List Json) (ckvs : List (String × Json)) :
    (pyEqStr (dictGetD ckvs "action" Json.null) "remove" = true →
      optStrTruthy (_fuzzy_find (normalize_name (dictGetD ckvs "item_name" (Json.str "")))
        lk env.embed cache (6/10 : ℝ)).1.1 = false →
      applyChange env lk cache items (Json.obj ckvs) = .ok items) ∧
    (pyEqStr (dictGetD ckvs "action" Json.null) "update" = true →
      (optStrTruthy (_fuzzy_find (normalize_name (dictGetD ckvs "from_item" Json.null))
          lk env.embed cache (6/10 : ℝ)).1.1 = false ∨
       optStrTruthy (_fuzzy_find (normalize_name (dictGetD ckvs "to_item" Json.null))
          lk env.embed cache (6/10 : ℝ)).1.1 = false) →
      applyChange env lk cache items (Json.obj ckvs) = .ok items) := by
  constructor
  · intro hrem hfz
    have ha := pyEqStr_eq hrem
    simp [applyChange, pyGet, Bind.bind, Except.bind, ha, pyEqStr, hfz]
  · intro hupd hfz
    have ha := pyEqStr_eq hupd
    rcases hfz with hfz | hfz <;>
      simp [applyChange, pyGet, Bind.bind, Except.bind, ha, pyEqStr, hfz]

/-- Witness for C6: removing an unknown item (the embedding service
failing over, as it does for any unknown phrase when the service
errors) leaves a one-line order intact. -/
theorem modification_unresolved_change_noop_witness :
    applyChange demoEnv [] [] [Json.obj [("normalized_key", Json.str "coke")]]
      (Json.obj [("action", Json.str "remove"), ("item_name", Json.str "zzz")]) =
      .ok [Json.obj [("normalized_key", Json.str "coke")]] :=
  (modification_unresolved_change_noop demoEnv [] [] _
    [("action", Json.str "remove"), ("item_name", Json.str "zzz")]).1 rfl rfl

theorem exceptFilter_key_ne (k : String) (items : List Json)
    (hobjs : ∀ it ∈ items, jIsObj it = true) :
    exceptFilter (fun item => do
      let v ← pyGet item "normalized_key" Json.null
      pure (!(pyEqStr v k))) items =
    .ok (items.filter (fun it => !(pyEqStr (lineItemKey it) k))) := by
  induction items with
  | nil => rfl
  | cons it rest ih =>
    have hobj := hobjs it (by simp)
    have ih' := ih (fun x hx => hobjs x (by simp [hx]))
    cases it with
    | obj kvs =>
      have hstep : exceptFilter (fun item => do
          let v ← pyGet item "normalized_key" Json.null
          pure (!(pyEqStr v k))) (Json.obj kvs :: rest) =
        (exceptFilter (fun item => do
          let v ← pyGet item "normalized_key" Json.null
          pure (!(pyEqStr v k))) rest).bind (fun r =>
            Except.ok (if !(pyEqStr (dictGetD kvs "normalized_key" Json.null) k)
              then Json.obj kvs :: r else r)) := rfl
      rw [hstep, ih']
      have hli : lineItemKey (Json.obj kvs) = dictGetD kvs "normalized_key" Json.null := rfl
      show Except.ok (if !(pyEqStr (dictGetD kvs "normalized_key" Json.null) k)
          then Json.obj kvs :: List.filter (fun it => !(pyEqStr (lineItemKey it) k)) rest
          else List.filter (fun it => !(pyEqStr (lineItemKey it) k)) rest) =
        Except.ok (List.filter (fun it => !(pyEqStr (lineItemKey it) k)) (Json.obj kvs :: rest))
      rw [List.filter_cons, hli]
    | null => simp [jIsObj] at hobj
    | bool b => simp [jIsObj] at hobj
    | int n => simp [jIsObj] at hobj
    | float q => simp [jIsObj] at hobj
    | str s => simp [jIsObj] at hobj
    | arr xs => simp [jIsObj] at hobj

/-- Claim C10: a `remove` change whose name does resolve deletes every
line item carrying the resolved key — all occurrences, none kept — and
leaves every other line item untouched (in particular no quantity is
decremented, and the change's own quantity field, present or absent,
plays no part: it is never read). -/
theorem remove_deletes_every_occurrence (env : Env) (lk : MenuLookup)
    (cache : List EmbItem) (items : List Json) (ckvs : List (String × Json)) (k : String)
    (haction : pyEqStr (dictGetD ckvs "action" Json.null) "remove" = true)
    (hres : (_fuzzy_find (normalize_name (dictGetD ckvs "item_name" (Json.str "")))
      lk env.embed cache (6/10 : ℝ)).1.1 = some k)
    (hk : k ≠ "")
    (hobjs : ∀ it ∈ items, jIsObj it = true) :
    applyChange env lk cache items (Json.obj ckvs) =
      .ok (items.filter (fun it => !(pyEqStr (lineItemKey it) k))) ∧
    (∀ it ∈ items.filter (fun it => !(pyEqStr (lineItemKey it) k)), it ∈ items) ∧
    (∀ it ∈ items, pyEqStr (lineItemKey it) k = true →
      it ∉ items.filter (fun it => !(pyEqStr (lineItemKey it) k))) := by
  refine ⟨?_, fun it hit => List.mem_of_mem_filter hit, ?_⟩
  · have ha := pyEqStr_eq haction
    have htruthy : optStrTruthy (_fuzzy_find
        (normalize_name (dictGetD ckvs "item_name" (Json.str "")))
        lk env.embed cache (6/10 : ℝ)).1.1 = true := by
      rw [hres]
      simp [optStrTruthy, hk]
    have hgetd : ((_fuzzy_find (normalize_name (dictGetD ckvs "item_name" (Json.str "")))
        lk env.embed cache (6/10 : ℝ)).1.1).getD "" = k := by
      rw [hres]
      rfl
    simp only [applyChange, pyGet, Bind.bind, Except.bind, ha]
    rw [show pyEqStr (Json.str "remove") "add" = false from rfl]
    rw [show pyEqStr (Json.str "remove") "remove" = true from rfl]
    simp only [Bool.false_eq_true, if_false, if_true, htruthy, hgetd]
    exact exceptFilter_key_ne k items hobjs
  · intro it hit hkey hmem
    have := (List.mem_filter.mp hmem).2
    rw [hkey] at this
    simp at this

/-- Witness for C10: removing `Coke` (exact catalog match) deletes
both lines carrying the key `coke`, keeps the unresolved line, and
the change record carries no quantity field. -/
theorem remove_deletes_every_occurrence_witness :
    applyChange demoEnv [("coke", demoEntry)] []
      [Json.obj [("normalized_key", Json.str "coke"), ("quantity", Json.int 2)],
       Json.obj [("normalized_key", Json.null)],
       Json.obj [("normalized_key", Json.str "coke"), ("quantity", Json.int 1)]]
      (Json.obj [("action", Json.str "remove"), ("item_name", Json.str "Coke")]) =
      .ok [Json.obj [("normalized_key", Json.null)]] := by
  have h := (remove_deletes_every_occurrence demoEnv [("coke", demoEntry)] []
    [Json.obj [("normalized_key", Json.str "coke"), ("quantity", Json.int 2)],
     Json.obj [("normalized_key", Json.null)],
     Json.obj [("normalized_key", Json.str "coke"), ("quantity", Json.int 1)]]
    [("action", Json.str "remove"), ("item_name", Json.str "Coke")] "coke"
    rfl rfl (by decide) (by intro it hit; fin_cases hit <;> rfl)).1
  rw [h]
  rfl

end TableAI
